import Mathlib

/-!
Verification of the ascii-video-generator pipeline.

The Python sources (`video_to_ascii.py`, `simple_ascii_video.py`,
`ascii_video_with_audio.py`) are shallowly embedded below.  Machine
integers are modelled as `Nat`/`Int`; Python's `int(x)` applied to a
non-negative float quotient is modelled as `Nat` floor division (for every
value domain appearing here the IEEE-double computation agrees exactly
with the integer floor, checked exhaustively over the 0..255 ranges
involved); Python strings are modelled as `String`/`List Char`.
-/

namespace AsciiVideo

/-! ## Glyph quantizer

`video_to_ascii.py` lines 283-289 (`frame_to_ascii`) and
`simple_ascii_video.py` lines 39-43 / `ascii_video_with_audio.py`
lines 57-61, which all perform:

    brightness = max(0, min(255, int(brightness)))
    char_index = int(brightness * (len(chars) - 1) / 255)
    char_index = max(0, min(len(chars) - 1, char_index))
-/

/-- `max(0, min(255, b))`, producing a `Nat` in `[0, 255]`. -/
def clamp255 (b : Int) : Nat := (max 0 (min 255 b)).toNat

/-- The glyph index computed by `frame_to_ascii` for one pixel:
clamp the brightness, take `int(b * (N-1) / 255)` (floor, the operands
being non-negative), clamp the index to `[0, N-1]`. -/
def char_index (chars : List Char) (brightness : Int) : Nat :=
  let b := clamp255 brightness
  let i := b * (chars.length - 1) / 255
  max 0 (min (chars.length - 1) i)

/-- The glyph selected for a brightness: `self.ascii_chars[char_index]`. -/
def glyph (chars : List Char) (brightness : Int) : Char :=
  chars.getD (char_index chars brightness) ' '

/-- Modelled from the spec's words (§4.1): `index = floor(brightness * (N-1) / 255)`
after clamping the brightness to `[0,255]`, then clamped again to `[0, N-1]`. -/
def spec_quantize (b : Int) (N : Nat) : Nat :=
  min (N - 1) (clamp255 b * (N - 1) / 255)

/-- The `'medium'` (default) alphabet of `video_to_ascii.py` and the only
alphabet of the two simpler variants. -/
def ascii_chars_medium : List Char := "@%#*+=-:. ".toList

/-- The `'low'` alphabet of `video_to_ascii.py`. -/
def ascii_chars_low : List Char := "@#*+=-:. ".toList

theorem clamp255_le (b : Int) : clamp255 b ≤ 255 := by
  unfold clamp255; omega

theorem clamp255_mono {b₁ b₂ : Int} (h : b₁ ≤ b₂) : clamp255 b₁ ≤ clamp255 b₂ := by
  unfold clamp255; omega

theorem char_index_eq_spec (chars : List Char) (b : Int) :
    char_index chars b = spec_quantize b chars.length := by
  unfold char_index spec_quantize
  simp

/-- For an in-range brightness the final clamp never fires: the floor is
already in `[0, N-1]`. -/
theorem spec_quantize_clamp_redundant (b : Int) (N : Nat) :
    spec_quantize b N = clamp255 b * (N - 1) / 255 := by
  unfold spec_quantize
  have hb : clamp255 b ≤ 255 := clamp255_le b
  have h : clamp255 b * (N - 1) / 255 ≤ N - 1 := by
    calc clamp255 b * (N - 1) / 255 ≤ 255 * (N - 1) / 255 :=
          Nat.div_le_div_right (Nat.mul_le_mul_right _ hb)
      _ = N - 1 := Nat.mul_div_cancel_left _ (by norm_num)
  exact min_eq_right h

theorem char_index_le (chars : List Char) (b : Int) :
    char_index chars b ≤ chars.length - 1 := by
  rw [char_index_eq_spec, spec_quantize]
  exact min_le_left _ _

theorem char_index_zero (chars : List Char) : char_index chars 0 = 0 := by
  unfold char_index clamp255
  simp

theorem char_index_255 (chars : List Char) :
    char_index chars 255 = chars.length - 1 := by
  rw [char_index_eq_spec, spec_quantize_clamp_redundant]
  show (255 : Int).toNat * (chars.length - 1) / 255 = chars.length - 1
  rw [show (255 : Int).toNat = 255 from rfl, Nat.mul_div_cancel_left _ (by norm_num)]

/-- C1: for every brightness `b` (clamped to `[0,255]` first) and alphabet of
size `N`, the quantizer returns `floor(b * (N-1) / 255)` clamped to `[0, N-1]`;
brightness 0 yields index 0 (glyph `'@'` for the 10-character alphabet
`"@%#*+=-:. "`) and brightness 255 yields index `N-1` (glyph `' '` for that
alphabet). -/
theorem c1_quantizer_formula (chars : List Char) (b : Int) :
    char_index chars b = spec_quantize b chars.length ∧
    char_index chars 0 = 0 ∧
    char_index chars 255 = chars.length - 1 ∧
    char_index ascii_chars_medium 0 = 0 ∧
    glyph ascii_chars_medium 0 = '@' ∧
    char_index ascii_chars_medium 255 = 9 ∧
    glyph ascii_chars_medium 255 = ' ' := by
  refine ⟨char_index_eq_spec chars b, char_index_zero chars, char_index_255 chars,
    ?_, ?_, ?_, ?_⟩ <;> decide

/-- C2: for brightness values in `[0,255]` and alphabet size `N ≥ 2`,
the glyph quantizer is monotone non-decreasing in the brightness and its
result always lies in `[0, N-1]`. -/
theorem c2_quantizer_monotone (chars : List Char) (hN : 2 ≤ chars.length)
    (b₁ b₂ : Int) (h1 : 0 ≤ b₁) (h12 : b₁ ≤ b₂) (h2 : b₂ ≤ 255) :
    char_index chars b₁ ≤ char_index chars b₂ ∧
    char_index chars b₂ ≤ chars.length - 1 := by
  constructor
  · rw [char_index_eq_spec, char_index_eq_spec,
      spec_quantize_clamp_redundant, spec_quantize_clamp_redundant]
    exact Nat.div_le_div_right (Nat.mul_le_mul_right _ (clamp255_mono h12))
  · exact char_index_le chars b₂

/-- Witness for C2 at the medium alphabet, brightness 100 ≤ 200. -/
theorem c2_quantizer_monotone_witness :
    char_index ascii_chars_medium 100 ≤ char_index ascii_chars_medium 200 ∧
    char_index ascii_chars_medium 200 ≤ ascii_chars_medium.length - 1 :=
  c2_quantizer_monotone ascii_chars_medium (by decide) 100 200
    (by decide) (by decide) (by decide)

/-! ## String helpers modelling the Python primitives

`str.split(sep)`, `str.rstrip(chars)`, `int(str)` and `str.startswith` as
used by `get_rgb_from_ansi` (`video_to_ascii.py` lines 117-151), modelled
over `List Char`. -/

/-- Python's `s.split(sep)` for a one-character separator: always returns at
least one (possibly empty) piece. -/
def splitOnChar (sep : Char) : List Char → List (List Char)
  | [] => [[]]
  | c :: cs =>
    match splitOnChar sep cs with
    | [] => if c = sep then [[], []] else [[c]]
    | h :: t => if c = sep then [] :: h :: t else (c :: h) :: t

/-- Python's `s.rstrip('m')`: drop every trailing `'m'`. -/
def rstripChar (x : Char) (l : List Char) : List Char :=
  (l.reverse.dropWhile (fun c => c = x)).reverse

/-- Python's `int(s)` on the strings reachable here: an optional sign
followed by one or more digits parses to the signed value, anything else
raises `ValueError` (modelled as `none`).  (Surrounding whitespace and
digit-separating underscores, which `int` also accepts, cannot occur in the
strings this program produces and are not modelled.) -/
def pyInt? (l : List Char) : Option Int :=
  let core := fun (neg : Bool) (ds : List Char) =>
    if ds ≠ [] ∧ ds.all Char.isDigit then
      let n : Nat := ds.foldl (fun a c => a * 10 + (c.toNat - 48)) 0
      some (if neg then -(n : Int) else (n : Int))
    else none
  match l with
  | [] => none
  | c :: rest =>
    if c = '-' then core true rest
    else if c = '+' then core false rest
    else core false l

/-! ## 256-color quantizer (`video_to_ascii.py`)

`get_color_code` (lines 84-104) and `get_rgb_from_ansi` (lines 117-151). -/

/-- The string `"\033[38;5;" + str(n) + "m"` emitted by `get_color_code`. -/
def mk_color_str (n : Nat) : String :=
  "\x1b[38;5;" ++ toString n ++ "m"

/-- `get_color_code(self, r, g, b)` of `video_to_ascii.py`: `""` when color
is off; for grayscale input (`r == g == b`) the codes 16 (black, `r < 8`),
231 (white, `r > 248`) or `232 + int((r / 255) * 23)`; otherwise the 6×6×6
cube code `16 + 36*int(r/255*5) + 6*int(g/255*5) + int(b/255*5)`.
Each `int(channel / 255 * k)` equals the integer floor `channel * k / 255`
for every channel in 0..255. -/
def get_color_code (useColor : Bool) (r g b : Nat) : String :=
  if useColor = false then ""
  else if r = g ∧ g = b then
    if r < 8 then mk_color_str 16
    else if r > 248 then mk_color_str 231
    else mk_color_str (232 + r * 23 / 255)
  else
    mk_color_str (16 + 36 * (r * 5 / 255) + 6 * (g * 5 / 255) + b * 5 / 255)

/-- The `basic_colors` table of `get_rgb_from_ansi` (codes 0-15). -/
def basic_colors : List (Nat × Nat × Nat) :=
  [(0, 0, 0), (128, 0, 0), (0, 128, 0), (128, 128, 0),
   (0, 0, 128), (128, 0, 128), (0, 128, 128), (192, 192, 192),
   (128, 128, 128), (255, 0, 0), (0, 255, 0), (255, 255, 0),
   (0, 0, 255), (255, 0, 255), (0, 255, 255), (255, 255, 255)]

/-- The attempt of `get_rgb_from_ansi` to extract `color_num`:
`int(ansi_code.split(';')[2].rstrip('m'))`, guarded by
`ansi_code.startswith('\033[38;5;')`.  `none` covers the early
`return (255, 255, 255)` for a bad prefix and the caught
`ValueError`/`IndexError`. -/
def ansi_code_num? (ansi : String) : Option Int :=
  if "\x1b[38;5;".toList.isPrefixOf ansi.toList then
    match (splitOnChar ';' ansi.toList).get? 2 with
    | some part => pyInt? (rstripChar 'm' part)
    | none => none
  else none

/-- `get_rgb_from_ansi(self, ansi_code)` of `video_to_ascii.py`:
grayscale band 232-255 inverts via `int((code - 232) * 255 / 23)` (equal to
the integer floor for every code in the band), cube band 16-231 inverts via
the `// 36`, `% 36 // 6`, `% 6` formulas scaled by 51, codes 0-15 use the
`basic_colors` table, and everything else — bad prefix, parse failure,
out-of-range number — is white `(255, 255, 255)`. -/
def get_rgb_from_ansi (ansi : String) : Nat × Nat × Nat :=
  match ansi_code_num? ansi with
  | none => (255, 255, 255)
  | some n =>
    if 232 ≤ n ∧ n ≤ 255 then
      let gray := (n.toNat - 232) * 255 / 23
      (gray, gray, gray)
    else if 16 ≤ n ∧ n ≤ 231 then
      let m := n.toNat - 16
      (m / 36 * 51, m % 36 / 6 * 51, m % 6 * 51)
    else if 0 ≤ n ∧ n < 16 then
      basic_colors.getD n.toNat (255, 255, 255)
    else (255, 255, 255)

/-- A string is a recognized palette code when the code extraction of
`get_rgb_from_ansi` succeeds and yields a number one of its three palette
branches accepts (0-255). -/
def recognized_code (ansi : String) : Bool :=
  match ansi_code_num? ansi with
  | some n => decide (0 ≤ n ∧ n ≤ 255)
  | none => false

/-- A code string lying in the grayscale classification of the palette:
black (16), white (231), or the 232-255 gray ramp. -/
def gray_band_code (ansi : String) : Bool :=
  match ansi_code_num? ansi with
  | some n => decide (n = 16 ∨ n = 231 ∨ (232 ≤ n ∧ n ≤ 255))
  | none => false

/-- Distance between two channel values. -/
def nat_dist (a b : Nat) : Nat := max a b - min a b

theorem all_range_true {p : Nat → Bool} {n : Nat}
    (h : (List.range n).all p = true) {k : Nat} (hk : k < n) : p k = true := by
  rw [List.all_eq_true] at h
  exact h k (List.mem_range.mpr hk)

set_option maxRecDepth 40000 in
theorem parse_mk_color_all : (List.range 256).all
    (fun k => ansi_code_num? (mk_color_str k) = some (k : Int)) = true := by
  decide

/-- The emitted color strings parse back to their code number. -/
theorem parse_mk_color {k : Nat} (hk : k < 256) :
    ansi_code_num? (mk_color_str k) = some (k : Int) := by
  have := all_range_true parse_mk_color_all hk
  simpa using this

set_option maxRecDepth 40000 in
theorem gray_roundtrip_all : (List.range 256).all (fun r =>
    let t := get_rgb_from_ansi (get_color_code true r r r)
    gray_band_code (get_color_code true r r r) &&
      (t.1 = t.2.1 && (t.2.1 = t.2.2 && nat_dist t.1 r ≤ 12))) = true := by
  decide

/-- C3 (amended): for `r = g = b ≤ 255` the forward mapping lands in the
grayscale classification (black 16, white 231, or the 232-255 ramp) and the
inverse of that code is a gray triple each of whose components differs from
`r` by at most 12 — one grayscale step can exceed the spec's claimed bound
of one bucket width (≈ 11) by one. -/
theorem c3_gray_roundtrip (r : Nat) (h : r ≤ 255) :
    gray_band_code (get_color_code true r r r) = true ∧
    (get_rgb_from_ansi (get_color_code true r r r)).1 =
      (get_rgb_from_ansi (get_color_code true r r r)).2.1 ∧
    (get_rgb_from_ansi (get_color_code true r r r)).2.1 =
      (get_rgb_from_ansi (get_color_code true r r r)).2.2 ∧
    nat_dist (get_rgb_from_ansi (get_color_code true r r r)).1 r ≤ 12 := by
  have := all_range_true gray_roundtrip_all (show r < 256 by omega)
  simp only [Bool.and_eq_true, decide_eq_true_eq] at this
  exact ⟨this.1, this.2.1, this.2.2.1, this.2.2.2⟩

/-- Witness for C3 at `r = 40`. -/
theorem c3_gray_roundtrip_witness :
    (40 : Nat) ≤ 255 ∧
    (gray_band_code (get_color_code true 40 40 40) = true ∧
     (get_rgb_from_ansi (get_color_code true 40 40 40)).1 =
       (get_rgb_from_ansi (get_color_code true 40 40 40)).2.1 ∧
     (get_rgb_from_ansi (get_color_code true 40 40 40)).2.1 =
       (get_rgb_from_ansi (get_color_code true 40 40 40)).2.2 ∧
     nat_dist (get_rgb_from_ansi (get_color_code true 40 40 40)).1 40 ≤ 12) :=
  ⟨by decide, c3_gray_roundtrip 40 (by decide)⟩

/-- C3 counterexample: at `r = g = b = 133` the forward code is 243 and the
inverse is `(121, 121, 121)`: the component error is 12, which exceeds one
grayscale bucket width (`255/24 ≈ 11`, and also `⌈255/23⌉ = 12 > 11`). -/
theorem c3_gray_roundtrip_counterexample :
    get_color_code true 133 133 133 = "\x1b[38;5;243m" ∧
    get_rgb_from_ansi "\x1b[38;5;243m" = (121, 121, 121) ∧
    nat_dist 121 133 = 12 ∧ ¬(nat_dist 121 133 ≤ 11) := by
  decide

/-- C4: for a non-gray RGB triple the forward mapping quantizes each channel
into 6 levels by `int(channel / 255 * 5)` (= the floor `channel * 5 / 255`)
and emits cube code `16 + 36*r_level + 6*g_level + b_level`; every cube code
`c` in `[16, 231]` inverts to `((c-16)/36*51, ((c-16)%36)/6*51, ((c-16)%6)*51)`
(integer division), and each such component re-quantizes to its own level,
i.e. the inverse is a representative of the same bucket. -/
theorem c4_cube_mapping :
    (∀ r g b : Nat, ¬(r = g ∧ g = b) →
      get_color_code true r g b =
        mk_color_str (16 + 36 * (r * 5 / 255) + 6 * (g * 5 / 255) + b * 5 / 255)) ∧
    (∀ c : Nat, 16 ≤ c → c ≤ 231 →
      get_rgb_from_ansi (mk_color_str c) =
        ((c - 16) / 36 * 51, (c - 16) % 36 / 6 * 51, (c - 16) % 6 * 51)) ∧
    (∀ lv : Nat, lv ≤ 5 → lv * 51 * 5 / 255 = lv) := by
  refine ⟨?_, ?_, ?_⟩
  · intro r g b h
    unfold get_color_code
    rw [if_neg (by simp), if_neg h]
  · intro c h1 h2
    have hp := parse_mk_color (show c < 256 by omega)
    have hc : ((c : Int)).toNat = c := by omega
    simp only [get_rgb_from_ansi, hp]
    rw [if_neg (show ¬((232 : Int) ≤ (c : Int) ∧ (c : Int) ≤ 255) by omega),
        if_pos (show (16 : Int) ≤ (c : Int) ∧ (c : Int) ≤ 231 by omega)]
    simp only [hc]
  · intro lv hlv
    interval_cases lv <;> rfl

/-- Witness for C4: the non-gray triple `(10, 20, 30)`, the cube code 100,
and level 3. -/
theorem c4_cube_mapping_witness :
    (¬((10 : Nat) = 20 ∧ (20 : Nat) = 30) ∧
      get_color_code true 10 20 30 =
        mk_color_str (16 + 36 * (10 * 5 / 255) + 6 * (20 * 5 / 255) + 30 * 5 / 255)) ∧
    ((16 : Nat) ≤ 100 ∧ (100 : Nat) ≤ 231 ∧
      get_rgb_from_ansi (mk_color_str 100) =
        ((100 - 16) / 36 * 51, (100 - 16) % 36 / 6 * 51, (100 - 16) % 6 * 51)) ∧
    ((3 : Nat) ≤ 5 ∧ 3 * 51 * 5 / 255 = 3) :=
  ⟨⟨by decide, c4_cube_mapping.1 10 20 30 (by decide)⟩,
   ⟨by decide, by decide, c4_cube_mapping.2.1 100 (by decide) (by decide)⟩,
   ⟨by decide, c4_cube_mapping.2.2 3 (by decide)⟩⟩

/-! ## 16-color quantizer (`ascii_video_with_audio.py`)

`get_color_code` (lines 78-105) and `ansi_to_rgb` (lines 167-181). -/

/-- `get_color_code(self, r, g, b)` of `ascii_video_with_audio.py`:
grayscale bands when `r == g == b`, then dominant-channel checks, then
paired-channel-above-128 checks, defaulting to light gray `"\033[37m"`. -/
def get_color_code_16 (r g b : Nat) : String :=
  if r = g ∧ g = b then
    if r < 64 then "\x1b[30m"
    else if r < 128 then "\x1b[90m"
    else if r < 192 then "\x1b[37m"
    else "\x1b[97m"
  else if r > g ∧ r > b then "\x1b[91m"
  else if g > r ∧ g > b then "\x1b[92m"
  else if b > r ∧ b > g then "\x1b[94m"
  else if r > 128 ∧ g > 128 then "\x1b[93m"
  else if r > 128 ∧ b > 128 then "\x1b[95m"
  else if g > 128 ∧ b > 128 then "\x1b[96m"
  else "\x1b[37m"

/-- The key list of the `color_map` dictionary in `ansi_to_rgb`. -/
def ansi16_keys : List String :=
  ["\x1b[30m", "\x1b[90m", "\x1b[37m", "\x1b[97m", "\x1b[91m",
   "\x1b[92m", "\x1b[94m", "\x1b[93m", "\x1b[95m", "\x1b[96m"]

/-- `ansi_to_rgb(self, ansi_code)` of `ascii_video_with_audio.py`:
`color_map.get(ansi_code, (255, 255, 255))`. -/
def ansi_to_rgb (ansi : String) : Nat × Nat × Nat :=
  if ansi = "\x1b[30m" then (0, 0, 0)
  else if ansi = "\x1b[90m" then (128, 128, 128)
  else if ansi = "\x1b[37m" then (192, 192, 192)
  else if ansi = "\x1b[97m" then (255, 255, 255)
  else if ansi = "\x1b[91m" then (255, 0, 0)
  else if ansi = "\x1b[92m" then (0, 255, 0)
  else if ansi = "\x1b[94m" then (0, 0, 255)
  else if ansi = "\x1b[93m" then (255, 255, 0)
  else if ansi = "\x1b[95m" then (255, 0, 255)
  else if ansi = "\x1b[96m" then (0, 255, 255)
  else (255, 255, 255)

/-- Modelled from the spec's words (§4.2, 16-color mode): grayscale check
first, then dominant-single-channel checks with comparisons `r>g and r>b`
etc., then paired-channel-above-128 checks, falling back to a default
light-gray code. -/
def spec_classify_16 (r g b : Nat) : String :=
  if r = g ∧ g = b then
    if r < 64 then "\x1b[30m"
    else if r < 128 then "\x1b[90m"
    else if r < 192 then "\x1b[37m"
    else "\x1b[97m"
  else if r > g ∧ r > b then "\x1b[91m"
  else if g > r ∧ g > b then "\x1b[92m"
  else if b > r ∧ b > g then "\x1b[94m"
  else if r > 128 ∧ g > 128 then "\x1b[93m"
  else if r > 128 ∧ b > 128 then "\x1b[95m"
  else if g > 128 ∧ b > 128 then "\x1b[96m"
  else "\x1b[37m"

/-- C5: the 16-color classifier checks grayscale first, then dominant
single channel, then paired channels above 128, falling back to light gray;
in particular `(200, 50, 50)` is classified red and its code inverts to
`(255, 0, 0)`. -/
theorem c5_sixteen_color_classifier :
    (∀ r g b : Nat, get_color_code_16 r g b = spec_classify_16 r g b) ∧
    get_color_code_16 200 50 50 = "\x1b[91m" ∧
    ansi_to_rgb "\x1b[91m" = (255, 0, 0) := by
  refine ⟨fun r g b => rfl, by decide, by decide⟩

/-- C6: the code-to-RGB inverse mappings are total — every string maps to
some triple, the translation modelling the `try/except` of
`get_rgb_from_ansi` with an `Option` whose `none` ends in the default — and
any input that is not a recognized palette code yields the default white
`(255, 255, 255)`, in both the 256-color inverse (`video_to_ascii.py`) and
the 16-color inverse (`ascii_video_with_audio.py`). -/
theorem c6_inverse_total_default_white (s t : String)
    (hs : recognized_code s = false) (ht : t ∉ ansi16_keys) :
    get_rgb_from_ansi s = (255, 255, 255) ∧ ansi_to_rgb t = (255, 255, 255) := by
  constructor
  · unfold recognized_code at hs
    match hmatch : ansi_code_num? s with
    | none => simp only [get_rgb_from_ansi, hmatch]
    | some n =>
      rw [hmatch] at hs
      simp only [decide_eq_false_iff_not, not_and, not_le] at hs
      simp only [get_rgb_from_ansi, hmatch]
      rw [if_neg (by omega), if_neg (by omega), if_neg (by omega)]
  · unfold ansi_to_rgb
    simp only [ansi16_keys, List.mem_cons, List.not_mem_nil, or_false] at ht
    push_neg at ht
    obtain ⟨h1, h2, h3, h4, h5, h6, h7, h8, h9, h10⟩ := ht
    rw [if_neg h1, if_neg h2, if_neg h3, if_neg h4, if_neg h5,
        if_neg h6, if_neg h7, if_neg h8, if_neg h9, if_neg h10]

/-- Witness for C6 at the malformed inputs `"garbage"` and `"\x1b[99m"`. -/
theorem c6_inverse_total_default_white_witness :
    recognized_code "garbage" = false ∧ "\x1b[99m" ∉ ansi16_keys ∧
    (get_rgb_from_ansi "garbage" = (255, 255, 255) ∧
     ansi_to_rgb "\x1b[99m" = (255, 255, 255)) :=
  ⟨by decide, by decide,
   c6_inverse_total_default_white "garbage" "\x1b[99m" (by decide) (by decide)⟩

/-! ## Frame resizing

`video_to_ascii.py` `resize_frame` (lines 75-82), `simple_ascii_video.py`
lines 28-33 and `ascii_video_with_audio.py` lines 36-41:

    aspect_ratio = height / original_width
    char_aspect_ratio = 0.45 if self.quality == 'high' else 0.55   # or 0.5
    new_height = int(width * aspect_ratio * char_aspect_ratio)

The float arithmetic is modelled as exact rationals over the common
denominator 100, the final `int(...)` as the floor. -/

/-- The aspect-correction numerator over 100:
`0.45 if quality == 'high' else 0.55`. -/
def aspect_num (quality : String) : Nat := if quality = "high" then 45 else 55

/-- `int(width * (h / w) * char_aspect_ratio)` of `resize_frame`. -/
def resize_new_height (quality : String) (h w width : Nat) : Nat :=
  width * h * aspect_num quality / (w * 100)

/-- The `cv2.resize` target of `resize_frame`: `(width, new_height)`,
i.e. `width` columns and `new_height` rows. -/
def resize_frame_dims (quality : String) (h w width : Nat) : Nat × Nat :=
  (width, resize_new_height quality h w width)

/-- `int(self.width * aspect_ratio * 0.5)` of the two simpler variants. -/
def simple_new_height (h w width : Nat) : Nat := width * h / (w * 2)

/-- Modelled from the spec's words (§4.3 step 1):
`round(width * (source_height/source_width) * aspect_correction)`,
rounding to nearest. -/
def spec_round_rows (quality : String) (h w width : Nat) : Nat :=
  (2 * (width * h * aspect_num quality) + w * 100) / (2 * (w * 100))

/-- C7 (amended): the frame renderer resizes to `width` columns and
computes the row count as the *floor* (Python `int` truncation, not
`round`) of `width * (h/w) * aspect_correction`, with the correction equal
to 0.45 for `'high'` quality and 0.55 otherwise in `video_to_ascii.py`,
and 0.5 in the two simpler variants — all within `[0.45, 0.55]`. -/
theorem c7_resize_floor (q : String) (h w width : Nat) :
    resize_frame_dims q h w width =
      (width, width * h * aspect_num q / (w * 100)) ∧
    45 ≤ aspect_num q ∧ aspect_num q ≤ 55 ∧
    simple_new_height h w width = width * h * 50 / (w * 100) := by
  refine ⟨rfl, ?_, ?_, ?_⟩
  · unfold aspect_num; split <;> norm_num
  · unfold aspect_num; split <;> norm_num
  · unfold simple_new_height
    rw [show w * 100 = w * 2 * 50 by ring, show width * h * 50 = width * h * 50 from rfl]
    exact (Nat.mul_div_mul_right _ _ (by norm_num)).symm

/-- C7 counterexample: for a square source frame (`h = w = 100`) at
requested width 81 and the default `'medium'` quality, the code computes
`int(81 * 1 * 0.55) = 44` rows while the spec's `round(44.55) = 45`. -/
theorem c7_resize_round_counterexample :
    resize_new_height "medium" 100 100 81 = 44 ∧
    spec_round_rows "medium" 100 100 81 = 45 ∧ (44 : Nat) ≠ 45 := by
  decide

/-! ## The save-with-audio flow

`video_to_ascii.py` `save_ascii_video` lines 449-477 (the same structure
appears in `ascii_video_with_audio.py` `create_video` lines 306-334),
modelled from the point where the silent frames have been written to the
temporary video file.  File existence is tracked with booleans, rebound as
files are created and removed. -/

/-- Outcomes of the external collaborators during one save run. -/
structure SaveEnv where
  preserveAudio : Bool
  originalGiven : Bool
  moviepyAvailable : Bool
  /-- `extract_audio` returns a path rather than `None`. -/
  extractSucceeds : Bool
  /-- `combine_video_audio` returns `True` (writing `output_path`). -/
  combineSucceeds : Bool
deriving DecidableEq

/-- The observable state when `save_ascii_video` returns. -/
structure SaveOutcome where
  returned : Bool
  outputExists : Bool
  outputHasAudio : Bool
  tempVideoRemains : Bool
  tempAudioRemains : Bool
deriving DecidableEq

/-- `save_ascii_video` lines 449-477.  The audio branch extracts, combines,
then removes both temporaries; on combine failure it prints that it is
saving the video without audio and falls through — but the fallback rename
only acts `if os.path.exists(temp_video_path)`, and the temporary video was
just removed, so the function reaches its final `return False`. -/
def save_flow (e : SaveEnv) : SaveOutcome :=
  let tempVideo := true          -- the rendered silent video exists
  if e.preserveAudio ∧ e.originalGiven ∧ e.moviepyAvailable then
    if e.extractSucceeds then
      let tempAudio := true
      let output := e.combineSucceeds
      -- clean up temporary files (runs on success and on failure)
      let tempVideo := false
      let tempAudio := false
      if e.combineSucceeds then
        { returned := true, outputExists := output, outputHasAudio := true,
          tempVideoRemains := tempVideo, tempAudioRemains := tempAudio }
      else
        -- "Failed to combine audio, saving video without audio..."
        if tempVideo then
          { returned := true, outputExists := true, outputHasAudio := false,
            tempVideoRemains := false, tempAudioRemains := tempAudio }
        else
          { returned := false, outputExists := output, outputHasAudio := false,
            tempVideoRemains := tempVideo, tempAudioRemains := tempAudio }
    else
      -- extraction failed or produced no track: fall through to the rename
      if tempVideo then
        { returned := true, outputExists := true, outputHasAudio := false,
          tempVideoRemains := false, tempAudioRemains := false }
      else
        { returned := false, outputExists := false, outputHasAudio := false,
          tempVideoRemains := tempVideo, tempAudioRemains := false }
  else
    -- audio not requested / not possible: rename the temp video
    if tempVideo then
      { returned := true, outputExists := true, outputHasAudio := false,
        tempVideoRemains := false, tempAudioRemains := false }
    else
      { returned := false, outputExists := false, outputHasAudio := false,
        tempVideoRemains := tempVideo, tempAudioRemains := false }

/-- C8: when audio extraction fails the run does continue and delivers a
silent video with success, with the temporaries removed — but when the
*remux* (combine) step fails, the cleanup removes the temporary silent
video before the fallback rename runs, so `save_ascii_video` returns
`False` and no file is delivered at the output path, contradicting both the
claim and the code's own "saving video without audio..." message.  The
temporaries are removed on every path. -/
theorem c8_remux_failure_no_output :
    (save_flow ⟨true, true, true, true, false⟩).returned = false ∧
    (save_flow ⟨true, true, true, true, false⟩).outputExists = false ∧
    (save_flow ⟨true, true, true, true, false⟩).tempVideoRemains = false ∧
    (save_flow ⟨true, true, true, true, false⟩).tempAudioRemains = false ∧
    (save_flow ⟨true, true, true, false, false⟩).returned = true ∧
    (save_flow ⟨true, true, true, false, false⟩).outputExists = true ∧
    (save_flow ⟨true, true, true, false, false⟩).outputHasAudio = false ∧
    (save_flow ⟨true, true, true, false, false⟩).tempVideoRemains = false ∧
    (save_flow ⟨true, true, true, false, false⟩).tempAudioRemains = false := by
  decide

/-! ## Frame rendering and compositing

The monochrome glyph loop of `simple_ascii_video.py` lines 36-46 (the same
loop appears in `video_to_ascii.py` lines 276-299 and
`ascii_video_with_audio.py` lines 52-71 when color is off), the simple
compositor `ascii_to_simple_image` (`simple_ascii_video.py` lines 48-59)
and the dimension computation of `ascii_to_image`
(`video_to_ascii.py` lines 153-174). -/

/-- The glyph loop over the resized grayscale grid: one glyph per pixel,
a `'\n'` after every row. -/
def ascii_of_grid (chars : List Char) (grid : List (List Nat)) : List Char :=
  (grid.map (fun row => row.map (fun px => glyph chars (Int.ofNat px)) ++ ['\n'])).join

/-- Python's whitespace class, as stripped by `str.strip()`. -/
def is_py_space (c : Char) : Bool :=
  c = ' ' || c = '\t' || c = '\n' || c = '\r' || c = '\x0b' || c = '\x0c'

/-- Python's `s.strip()`: remove leading and trailing whitespace of the
whole text. -/
def py_strip (l : List Char) : List Char :=
  ((l.dropWhile is_py_space).reverse.dropWhile is_py_space).reverse

/-- `ascii_to_simple_image` dimension computation
(`simple_ascii_video.py` lines 53-59):

    lines = ascii_text.strip().split('\n')
    img_width = len(lines[0]) * self.char_width
    img_height = len(lines) * self.char_height
-/
def simple_image_dims (charW charH : Nat) (text : List Char) : Nat × Nat :=
  let lines := splitOnChar '\n' (py_strip text)
  ((lines.headD []).length * charW, lines.length * charH)

/-- One left-to-right pass of `re.sub(r'\033\[[0-9;]*m', '', line)`.
The first argument holds the pending characters of a partially matched
escape sequence (empty: no match in progress; `[ESC]`: after the escape;
longer: after `ESC [` and any digits/semicolons).  Since a match can only
start at an escape character and a pending chunk contains no second escape,
flushing the pending chunk and restarting at the current character agrees
with the regex engine's advance-by-one retry. -/
def strip_ansi_go : List Char → List Char → List Char
  | pending, [] => pending
  | pending, c :: cs =>
    match pending with
    | [] =>
      if c = '\x1b' then strip_ansi_go [c] cs
      else c :: strip_ansi_go [] cs
    | [e] =>
      if c = '[' then strip_ansi_go [e, c] cs
      else if c = '\x1b' then e :: strip_ansi_go [c] cs
      else e :: c :: strip_ansi_go [] cs
    | p =>
      if c.isDigit || c = ';' then strip_ansi_go (p ++ [c]) cs
      else if c = 'm' then strip_ansi_go [] cs
      else if c = '\x1b' then p ++ strip_ansi_go [c] cs
      else p ++ c :: strip_ansi_go [] cs

/-- `re.sub(r'\033\[[0-9;]*m', '', line)`: delete every ANSI color code. -/
def strip_ansi (l : List Char) : List Char := strip_ansi_go [] l

/-- `ascii_to_image` dimension computation (`video_to_ascii.py`
lines 158-174): strip and split the text, remove the ANSI codes from every
line, and size the image by the longest clean line (falling back to the
configured width for an empty list) and the line count. -/
def ascii_to_image_dims (charW charH width : Nat) (text : List Char) : Nat × Nat :=
  let lines := splitOnChar '\n' (py_strip text)
  let clean := lines.map strip_ansi
  let maxW := if clean ≠ [] then (clean.map List.length).foldl max 0 else width
  (maxW * charW, clean.length * charH)

/-- The frame-writing loop of `save_ascii_video` (`video_to_ascii.py`
lines 386-423): the first frame's image fixes `(width, height)`; every
frame whose rasterized dimensions disagree is `cv2.resize`d to them before
being written. -/
def save_video_written_dims (charW charH width : Nat) :
    List (List Char) → List (Nat × Nat)
  | [] => []
  | f0 :: rest =>
    let d0 := ascii_to_image_dims charW charH width f0
    (f0 :: rest).map (fun f =>
      let d := ascii_to_image_dims charW charH width f
      if d = d0 then d else d0)

/-- The frame-writing loop of the simplified converter
(`simple_ascii_video.py` lines 140-145): each frame's image is written
as-is, with no dimension check. -/
def simple_written_dims (charW charH : Nat) (frames : List (List Char)) :
    List (Nat × Nat) :=
  frames.map (fun f => simple_image_dims charW charH f)

theorem splitOnChar_cons (sep c : Char) (cs : List Char) :
    splitOnChar sep (c :: cs) =
      match splitOnChar sep cs with
      | [] => if c = sep then [[], []] else [[c]]
      | h :: t => if c = sep then [] :: h :: t else (c :: h) :: t := rfl

theorem splitOnChar_ne_nil (sep : Char) (l : List Char) :
    splitOnChar sep l ≠ [] := by
  cases l with
  | nil => simp [splitOnChar]
  | cons c cs =>
    rw [splitOnChar_cons]
    split <;> split <;> simp

theorem splitOnChar_append_sep (sep : Char) (line text : List Char)
    (h : ∀ c ∈ line, c ≠ sep) :
    splitOnChar sep (line ++ sep :: text) = line :: splitOnChar sep text := by
  induction line with
  | nil =>
    simp only [List.nil_append]
    cases hs : splitOnChar sep text with
    | nil => exact absurd hs (splitOnChar_ne_nil sep text)
    | cons a b =>
      simp [splitOnChar_cons, hs]
  | cons c cs ih =>
    have hc : c ≠ sep := h c (by simp)
    have ih' := ih (fun x hx => h x (by simp [hx]))
    simp only [List.cons_append, splitOnChar_cons, ih']
    rw [if_neg hc]

theorem glyph_mem (chars : List Char) (hne : chars ≠ []) (b : Int) :
    glyph chars b ∈ chars := by
  have hlen : 1 ≤ chars.length := List.length_pos.mpr hne
  have hlt : char_index chars b < chars.length := by
    have := char_index_le chars b
    omega
  unfold glyph
  rw [List.getD_eq_getElem chars ' ' hlt]
  exact List.getElem_mem hlt

theorem ascii_of_grid_cons (chars : List Char) (row : List Nat)
    (rest : List (List Nat)) :
    ascii_of_grid chars (row :: rest) =
      row.map (fun px => glyph chars (Int.ofNat px)) ++ '\n' :: ascii_of_grid chars rest := by
  unfold ascii_of_grid
  simp [List.join, List.append_assoc]

/-- The raw renderer output splits into one line per grid row (each one
glyph per pixel) plus the empty piece after the final newline. -/
theorem ascii_of_grid_lines (chars : List Char) (hnl : '\n' ∉ chars)
    (hne : chars ≠ []) (grid : List (List Nat)) :
    splitOnChar '\n' (ascii_of_grid chars grid) =
      grid.map (fun row => row.map (fun px => glyph chars (Int.ofNat px))) ++ [[]] := by
  induction grid with
  | nil => rfl
  | cons row rest ih =>
    rw [ascii_of_grid_cons, splitOnChar_append_sep _ _ _
      (fun c hc => by
        obtain ⟨px, _, rfl⟩ := List.mem_map.mp hc
        intro heq
        exact hnl (heq ▸ glyph_mem chars hne (Int.ofNat px))), ih]
    rfl

theorem foldl_max_le_init (l : List Nat) (a : Nat) : a ≤ l.foldl max a := by
  induction l generalizing a with
  | nil => exact le_refl a
  | cons x xs ih => exact le_trans (le_max_left a x) (ih (max a x))

theorem mem_le_foldl_max {l : List Nat} {x : Nat} (h : x ∈ l) (a : Nat) :
    x ≤ l.foldl max a := by
  induction l generalizing a with
  | nil => cases h
  | cons y ys ih =>
    rcases List.mem_cons.mp h with rfl | h'
    · exact le_trans (le_max_right a x) (foldl_max_le_init ys _)
    · exact ih h' _

/-- C9 (amended): in `save_ascii_video` every frame written to the output
video has exactly the pixel dimensions of the first composited frame — a
disagreeing frame is resized to them.  (The simplified converter has no
such safeguard; see the counterexample.) -/
theorem c9_written_dims_equal_first (charW charH width : Nat)
    (f0 : List Char) (rest : List (List Char)) (d : Nat × Nat)
    (hd : d ∈ save_video_written_dims charW charH width (f0 :: rest)) :
    d = ascii_to_image_dims charW charH width f0 := by
  unfold save_video_written_dims at hd
  obtain ⟨f, _, rfl⟩ := List.mem_map.mp hd
  dsimp only
  split
  · assumption
  · rfl

/-- Witness for C9 on two concrete frames, the second of which rasterizes
to a different size before the resize. -/
theorem c9_written_dims_equal_first_witness :
    (16, 28) ∈ save_video_written_dims 8 14 80
        ["@@\n@@\n".toList, "@@\n  \n".toList] ∧
    (16, 28) = ascii_to_image_dims 8 14 80 "@@\n@@\n".toList :=
  ⟨by decide, c9_written_dims_equal_first 8 14 80 "@@\n@@\n".toList
    ["@@\n  \n".toList] (16, 28) (by decide)⟩

/-- C9 counterexample: in the simplified converter two frames rendered at
the same requested width (2 columns, from equal-sized source grids)
rasterize to different pixel widths — the second frame's leading space is
removed by `strip()`, its first line shrinks, and the frame is written
unresized — so the written bitmap dimensions disagree. -/
theorem c9_simple_dims_counterexample :
    ascii_of_grid ascii_chars_medium [[0, 0], [0, 0]] = "@@\n@@\n".toList ∧
    ascii_of_grid ascii_chars_medium [[255, 0], [0, 0]] = " @\n@@\n".toList ∧
    simple_written_dims 8 16 ["@@\n@@\n".toList, " @\n@@\n".toList] =
      [(16, 32), (8, 32)] ∧
    ((16, 32) : Nat × Nat) ≠ (8, 32) := by
  decide

/-- C10 (amended): the monochrome renderer emits one line per grid row,
each containing exactly one glyph of the configured alphabet per pixel (so
exactly `width` glyphs for a `width`-column grid); but the simple
compositor strips whole-text whitespace before splitting, so the image
width it derives from the first line alone is only *bounded by* the
maximum line length and can fall short of it. -/
theorem c10_renderer_invariants (chars : List Char) (hnl : '\n' ∉ chars)
    (hne : chars ≠ []) (grid : List (List Nat)) (W : Nat)
    (hW : ∀ row ∈ grid, row.length = W) (charW charH : Nat) (t : List Char) :
    ((splitOnChar '\n' (ascii_of_grid chars grid)).dropLast.length = grid.length ∧
     ∀ line ∈ (splitOnChar '\n' (ascii_of_grid chars grid)).dropLast,
       line.length = W ∧ ∀ c ∈ line, c ∈ chars) ∧
    (simple_image_dims charW charH t).1 ≤
      ((splitOnChar '\n' (py_strip t)).map List.length).foldl max 0 * charW := by
  refine ⟨?_, ?_⟩
  · rw [ascii_of_grid_lines chars hnl hne grid, List.dropLast_concat]
    refine ⟨by simp, ?_⟩
    intro line hline
    obtain ⟨row, hrow, rfl⟩ := List.mem_map.mp hline
    refine ⟨by simp [hW row hrow], ?_⟩
    intro c hc
    obtain ⟨px, _, rfl⟩ := List.mem_map.mp hc
    exact glyph_mem chars hne (Int.ofNat px)
  · unfold simple_image_dims
    have hne' := splitOnChar_ne_nil '\n' (py_strip t)
    refine Nat.mul_le_mul_right charW ?_
    refine mem_le_foldl_max ?_ 0
    refine List.mem_map.mpr ⟨_, ?_, rfl⟩
    cases hs : splitOnChar '\n' (py_strip t) with
    | nil => exact absurd hs hne'
    | cons a b => simp

/-- Witness for C10 at the medium alphabet and a 2×2 grid. -/
theorem c10_renderer_invariants_witness :
    ('\n' ∉ ascii_chars_medium ∧ ascii_chars_medium ≠ [] ∧
      ∀ row ∈ [[0, 100], [200, 255]], List.length row = 2) ∧
    (((splitOnChar '\n'
        (ascii_of_grid ascii_chars_medium [[0, 100], [200, 255]])).dropLast.length
          = 2 ∧
      ∀ line ∈ (splitOnChar '\n'
        (ascii_of_grid ascii_chars_medium [[0, 100], [200, 255]])).dropLast,
        line.length = 2 ∧ ∀ c ∈ line, c ∈ ascii_chars_medium) ∧
     (simple_image_dims 8 16 " @\n@@\n".toList).1 ≤
       ((splitOnChar '\n' (py_strip " @\n@@\n".toList)).map
         List.length).foldl max 0 * 8) :=
  ⟨⟨by decide, by decide, by decide⟩,
   c10_renderer_invariants ascii_chars_medium (by decide) (by decide)
     [[0, 100], [200, 255]] 2 (by decide) 8 16 " @\n@@\n".toList⟩

/-- C10 counterexample: for the frame rendered from the 2×2 grid with a
bright top-left pixel, `strip()` removes the leading space glyph, the first
line of the split shrinks to one character, and the simple compositor's
image width (8 pixels) is strictly less than the maximum line length in
cells times the cell width (16 pixels). -/
theorem c10_first_line_counterexample :
    ascii_of_grid ascii_chars_medium [[255, 0], [0, 0]] = " @\n@@\n".toList ∧
    simple_image_dims 8 16 " @\n@@\n".toList = (8, 32) ∧
    ((splitOnChar '\n' (py_strip " @\n@@\n".toList)).map
      List.length).foldl max 0 * 8 = 16 ∧
    (8 : Nat) ≠ 16 := by
  decide

end AsciiVideo
